import Mathlib

/-!
Verification of the command classification, argument-augmentation and
subprocess-orchestration layer of the git-ai proxy (src/main.rs).

The Rust source is shallowly embedded: pure functions become Lean
functions over `List Char` / `String`, and the effectful handlers
(`handle_git_commit`, `handle_git_blame`, `proxy_to_git`) become pure
functions from an environment record (the outcomes of the external
calls they make: repository resolution, hook results, child-process
statuses, config queries) to an outcome record (the argument list
handed to git, the process exit code, the messages printed to stderr,
and which steps ran).
-/

namespace GitAI

/-- Index of the last occurrence of `c` (Rust `str::rfind` restricted to a
`char` pattern; char index equals byte index here because the patterns used,
namely a colon and a dash, are ASCII). -/
def rfindChar (c : Char) : List Char → Option Nat
  | [] => none
  | x :: xs =>
    match rfindChar c xs with
    | some i => some (i + 1)
    | none => if x = c then some 0 else none

/-- Index of the first occurrence of `c` (Rust `str::find` with a `char`
pattern). -/
def ffindChar (c : Char) : List Char → Option Nat
  | [] => none
  | x :: xs => if x = c then some 0 else (ffindChar c xs).map (· + 1)

/-- Drop one leading sign character, as Rust unsigned integer parsing
accepts an optional leading plus (and never a minus). -/
def stripPlus : List Char → List Char
  | [] => []
  | c :: rest => if c = '+' then rest else c :: rest

/-- Numeric value of a digit string, most significant digit first. -/
def digitsVal (l : List Char) : Nat :=
  l.foldl (fun acc c => acc * 10 + (c.toNat - 48)) 0

/-- Rust `str::parse::<u32>()`: an optional leading plus, then at least one
ASCII digit, and the value must fit in 32 bits; anything else is an error
(`none`). -/
def parseU32 (s : List Char) : Option Nat :=
  if stripPlus s = [] then none
  else if (stripPlus s).all Char.isDigit then
    if digitsVal (stripPlus s) ≤ 4294967295 then some (digitsVal (stripPlus s))
    else none
  else none

/-- Embedding of `parse_file_with_line_range` (src/main.rs:342-363):
split at the last colon, then parse the suffix as `start-end` (splitting at
the first dash) or as a single line number; on any parse failure return the
whole original string as the path with no range. -/
def parse_file_with_line_range (file_arg : String) : String × Option (Nat × Nat) :=
  match rfindChar ':' file_arg.toList with
  | some colon_pos =>
    match ffindChar '-' (file_arg.toList.drop (colon_pos + 1)) with
    | some dash_pos =>
      match parseU32 ((file_arg.toList.drop (colon_pos + 1)).take dash_pos),
            parseU32 ((file_arg.toList.drop (colon_pos + 1)).drop (dash_pos + 1)) with
      | some s, some e => (String.mk (file_arg.toList.take colon_pos), some (s, e))
      | _, _ => (file_arg, none)
    | none =>
      match parseU32 (file_arg.toList.drop (colon_pos + 1)) with
      | some n => (String.mk (file_arg.toList.take colon_pos), some (n, n))
      | none => (file_arg, none)
  | none => (file_arg, none)

/-- Routing decision of `main` (src/main.rs:70-98) for a proxied invocation:
the first trailing argument selects commit wrapping, blame wrapping, or
transparent proxying; no trailing arguments at all is a usage error. -/
inductive Disposition where
  | usage
  | commit (args : List String)
  | blame (args : List String)
  | proxy (command : String) (args : List String)
deriving DecidableEq

/-- Embedding of the `match git_command.as_str()` dispatch in `main`
(src/main.rs:80-97). -/
def routeGitArgs (git_args : List String) : Disposition :=
  match git_args with
  | [] => Disposition.usage
  | cmd :: rest =>
    if cmd = "commit" then Disposition.commit rest
    else if cmd = "blame" then Disposition.blame rest
    else Disposition.proxy cmd rest

/-- Messages printed through `eprint_debug` (src/main.rs:13-25), which is
active only in development mode. -/
def debugMsgs (isDev : Bool) (msg : String) : List String :=
  if isDev then [msg] else []

/-- Environment of `handle_git_commit` (src/main.rs:162-214): the outcomes
of the external calls it makes, in the order it makes them. `spawnStatus`
models running the native `git commit` child: `Except.error` when the spawn
itself fails, otherwise the child's termination status (`some c` for exit
code `c`, `none` when the child terminated without a code; Rust
`ExitStatus::success()` is the status being `some 0`). -/
structure CommitEnv where
  findRepository : Except String Unit
  preCommitResult : Except String Unit
  spawnStatus : Except String (Option Int)
  postCommitResult : Except String Unit
  isDev : Bool

/-- Observable outcome of `handle_git_commit`: whether the native `git
commit` invocation was reached, whether the post-commit hook was invoked,
the process exit code, and what was printed to stderr. -/
structure CommitOutcome where
  nativeCommitInvoked : Bool
  postHookRan : Bool
  exitCode : Int
  stderr : List String
deriving DecidableEq

/-- Embedding of `handle_git_commit` (src/main.rs:162-214): resolve the
repository (failure is fatal, exit 1); run the pre-commit hook (failure is
fatal, exit 1, native commit never invoked); run `git commit` with the
original arguments (spawn failure exits 1); if the commit exited non-zero,
exit with `code().unwrap_or(1)` and skip the post-commit hook; otherwise
run the post-commit hook, reporting but ignoring its failure, and exit 0. -/
def handle_git_commit (env : CommitEnv) : CommitOutcome :=
  match env.findRepository with
  | Except.error e => ⟨false, false, 1, ["Failed to find repository: " ++ e]⟩
  | Except.ok _ =>
    match env.preCommitResult with
    | Except.error e => ⟨false, false, 1, ["Pre-commit hook failed: " ++ e]⟩
    | Except.ok _ =>
      match env.spawnStatus with
      | Except.error e =>
          ⟨true, false, 1,
            debugMsgs env.isDev "ran pre-commit hook" ++
              debugMsgs env.isDev ("Failed to execute git commit: " ++ e)⟩
      | Except.ok st =>
        if st = some 0 then
          match env.postCommitResult with
          | Except.error e =>
              ⟨true, true, 0,
                debugMsgs env.isDev "ran pre-commit hook" ++
                  (["Post-commit hook failed: " ++ e] ++
                    debugMsgs env.isDev "ran post-commit hook")⟩
          | Except.ok _ =>
              ⟨true, true, 0,
                debugMsgs env.isDev "ran pre-commit hook" ++
                  debugMsgs env.isDev "ran post-commit hook"⟩
        else
          ⟨true, false, st.getD 1, debugMsgs env.isDev "ran pre-commit hook"⟩

/-- Result lines of a `git config --get-all remote.<remote>.<direction>`
query (src/main.rs:314-340): when the query spawned and exited
successfully, its stdout is split into lines, each line trimmed, and blank
lines discarded; any failure yields the empty list. The query outcome is
`none` when the spawn itself failed, `some (success, stdout)` otherwise. -/
def refspecs_of (q : Option (Bool × String)) : List String :=
  match q with
  | some (true, out) => ((out.splitOn "\n").map String.trim).filter (fun s => !s.isEmpty)
  | _ => []

/-- Environment of `proxy_to_git` (src/main.rs:216-286): the repository
resolution outcome, the per-remote `git config` query outcomes for fetch
and push refspecs, and the spawned child's status (as in `CommitEnv`). -/
structure ProxyEnv where
  findRepository : Except String Unit
  fetchConfig : String → Option (Bool × String)
  pushConfig : String → Option (Bool × String)
  spawnStatus : Except String (Option Int)

/-- Embedding of `get_fetch_refspecs` (src/main.rs:314-326). -/
def get_fetch_refspecs (env : ProxyEnv) (remote : String) : List String :=
  refspecs_of (env.fetchConfig remote)

/-- Embedding of `get_push_refspecs` (src/main.rs:328-340). -/
def get_push_refspecs (env : ProxyEnv) (remote : String) : List String :=
  refspecs_of (env.pushConfig remote)

/-- Rust `str::starts_with('-')` with a single-char pattern: the first
character is a dash. -/
def startsWithDash (s : String) : Bool :=
  match s.toList with
  | [] => false
  | c :: _ => c = '-'

/-- The "simple invocation" test of the fetch/push augmentation branches
(src/main.rs:223 and 248): `args.is_empty() || (args.len() == 1 &&
!args[0].starts_with('-'))`. -/
def simpleArgs (args : List String) : Bool :=
  match args with
  | [] => true
  | [a] => !(startsWithDash a)
  | _ => false

/-- The auxiliary fetch refspec literal (src/main.rs:232-235). -/
def fetch_aux_refspec (remote : String) : String :=
  "+refs/ai/authorship/*:refs/remotes/" ++ remote ++ "/ai/authorship/*"

/-- The auxiliary push refspec literal (src/main.rs:257). -/
def push_aux_refspec : String :=
  "refs/ai/authorship/*:refs/ai/authorship/*"

/-- The argument list (after the subcommand itself) that `proxy_to_git`
hands to the spawned `git` child (src/main.rs:220-271): simple fetch/push
invocations with a resolvable repository are rebuilt as
`[remote, configured refspecs.., auxiliary refspec]` with the remote taken
from the single argument or defaulting to "origin"; everything else is
forwarded unchanged. -/
def augmentedArgs (env : ProxyEnv) (command : String) (args : List String) : List String :=
  if command = "fetch" then
    if simpleArgs args then
      match env.findRepository with
      | Except.ok _ =>
          ((args.head?).getD "origin") ::
            (get_fetch_refspecs env ((args.head?).getD "origin") ++
              [fetch_aux_refspec ((args.head?).getD "origin")])
      | Except.error _ => args
    else args
  else if command = "push" then
    if simpleArgs args then
      match env.findRepository with
      | Except.ok _ =>
          ((args.head?).getD "origin") ::
            (get_push_refspecs env ((args.head?).getD "origin") ++
              [push_aux_refspec])
      | Except.error _ => args
    else args
  else args

/-- Observable outcome of `proxy_to_git`: the argument list handed to git
after the subcommand, the process exit code, and the stderr messages. -/
structure ProxyOutcome where
  finalArgs : List String
  exitCode : Int
  stderr : List String
deriving DecidableEq

/-- Embedding of `proxy_to_git` (src/main.rs:216-286): build the final
argument list, spawn git (spawn failure reports and exits 1), and exit
with the child's code, or 1 when the child terminated without a code. -/
def proxy_to_git (env : ProxyEnv) (command : String) (args : List String) : ProxyOutcome :=
  match env.spawnStatus with
  | Except.error e =>
      ⟨augmentedArgs env command args, 1,
        ["Failed to execute git " ++ command ++ ": " ++ e]⟩
  | Except.ok st =>
      ⟨augmentedArgs env command args, st.getD 1, []⟩

/-- Environment of `handle_git_blame` (src/main.rs:288-312): the repository
resolution outcome and the result of the downstream `commands::blame`
query. -/
structure BlameEnv where
  findRepository : Except String Unit
  blameResult : Except String Unit

/-- Observable outcome of `handle_git_blame`: the (path, range) query sent
to the downstream blame command (if any), the exit code, and stderr. -/
structure BlameOutcome where
  blameQuery : Option (String × Option (Nat × Nat))
  exitCode : Int
  stderr : List String
deriving DecidableEq

/-- Embedding of `handle_git_blame` (src/main.rs:288-312): resolve the
repository (failure is fatal, exit 1); with no arguments print usage and
exit 1; otherwise parse the first argument as the blame target and run the
downstream blame query, exiting 1 on its failure and 0 on success. -/
def handle_git_blame (env : BlameEnv) (args : List String) : BlameOutcome :=
  match env.findRepository with
  | Except.error e => ⟨none, 1, ["Failed to find repository: " ++ e]⟩
  | Except.ok _ =>
    match args with
    | [] => ⟨none, 1, ["Usage: git-ai blame <file>"]⟩
    | file_arg :: _ =>
      match env.blameResult with
      | Except.error e =>
          ⟨some (parse_file_with_line_range file_arg), 1, ["Blame failed: " ++ e]⟩
      | Except.ok _ =>
          ⟨some (parse_file_with_line_range file_arg), 0, []⟩

end GitAI

/-- C3: the blame-target parser maps "file.rs:10-20" to ("file.rs", (10,20)),
"file.rs:10" to ("file.rs", (10,10)), "file.rs" to ("file.rs", no range),
"a:b:10-20" to ("a:b", (10,20)) (last colon wins), "file.rs:abc" to
("file.rs:abc", no range); and on any parse failure the whole original
string is returned as the path with no range. -/
theorem blame_parser_cases :
    GitAI.parse_file_with_line_range "file.rs:10-20" = ("file.rs", some (10, 20)) ∧
    GitAI.parse_file_with_line_range "file.rs:10" = ("file.rs", some (10, 10)) ∧
    GitAI.parse_file_with_line_range "file.rs" = ("file.rs", none) ∧
    GitAI.parse_file_with_line_range "a:b:10-20" = ("a:b", some (10, 20)) ∧
    GitAI.parse_file_with_line_range "file.rs:abc" = ("file.rs:abc", none) ∧
    ∀ s : String, (GitAI.parse_file_with_line_range s).2 = none →
      (GitAI.parse_file_with_line_range s).1 = s := by
  refine ⟨by decide, by decide, by decide, by decide, by decide, ?_⟩
  intro s h
  unfold GitAI.parse_file_with_line_range at h ⊢
  simp only [String.toList] at h ⊢
  rcases hrf : GitAI.rfindChar ':' s.data with _ | cp
  · simp [hrf]
  · simp only [hrf] at h ⊢
    rcases hff : GitAI.ffindChar '-' (s.data.drop (cp + 1)) with _ | dp
    · simp only [hff] at h ⊢
      rcases hp : GitAI.parseU32 (s.data.drop (cp + 1)) with _ | n
      · simp [hp]
      · simp [hp] at h
    · simp only [hff] at h ⊢
      rcases h1 : GitAI.parseU32 ((s.data.drop (cp + 1)).take dp) with _ | a <;>
      rcases h2 : GitAI.parseU32 ((s.data.drop (cp + 1)).drop (dp + 1)) with _ | b <;>
      simp_all

/-- Witness for C3: the fallback conjunct applied at a concrete failing
parse. -/
theorem blame_parser_cases_witness :
    (GitAI.parse_file_with_line_range "file.rs:abc").1 = "file.rs:abc" :=
  blame_parser_cases.2.2.2.2.2 "file.rs:abc" (by decide)

/-- C1: on the wrapped commit path, a pre-commit hook error is reported,
the process terminates with exit code 1, and the native git commit child
is never invoked. -/
theorem commit_prehook_failure_aborts (env : GitAI.CommitEnv) (e : String)
    (hrepo : env.findRepository = Except.ok ())
    (hpre : env.preCommitResult = Except.error e) :
    (GitAI.handle_git_commit env).stderr = ["Pre-commit hook failed: " ++ e] ∧
    (GitAI.handle_git_commit env).exitCode = 1 ∧
    (GitAI.handle_git_commit env).nativeCommitInvoked = false := by
  simp [GitAI.handle_git_commit, hrepo, hpre]

/-- Witness for C1 at a concrete environment. -/
theorem commit_prehook_failure_aborts_witness :
    (GitAI.handle_git_commit
        ⟨Except.ok (), Except.error "boom", Except.ok (some 0), Except.ok (), false⟩).stderr
      = ["Pre-commit hook failed: boom"] ∧
    (GitAI.handle_git_commit
        ⟨Except.ok (), Except.error "boom", Except.ok (some 0), Except.ok (), false⟩).exitCode
      = 1 ∧
    (GitAI.handle_git_commit
        ⟨Except.ok (), Except.error "boom", Except.ok (some 0), Except.ok (),
          false⟩).nativeCommitInvoked
      = false :=
  commit_prehook_failure_aborts _ "boom" rfl rfl

/-- C7: on the wrapped commit path, when the native git commit child exits
with a non-zero code, the process terminates with that same code and the
post-commit hook is never invoked. -/
theorem commit_native_failure_propagates (env : GitAI.CommitEnv) (c : Int)
    (hrepo : env.findRepository = Except.ok ())
    (hpre : env.preCommitResult = Except.ok ())
    (hspawn : env.spawnStatus = Except.ok (some c))
    (hc : c ≠ 0) :
    (GitAI.handle_git_commit env).exitCode = c ∧
    (GitAI.handle_git_commit env).postHookRan = false := by
  simp [GitAI.handle_git_commit, hrepo, hpre, hspawn, hc]

/-- Witness for C7 at a concrete environment with commit exit code 3. -/
theorem commit_native_failure_propagates_witness :
    (GitAI.handle_git_commit
        ⟨Except.ok (), Except.ok (), Except.ok (some 3), Except.ok (), false⟩).exitCode = 3 ∧
    (GitAI.handle_git_commit
        ⟨Except.ok (), Except.ok (), Except.ok (some 3), Except.ok (), false⟩).postHookRan
      = false :=
  commit_native_failure_propagates _ 3 rfl rfl rfl (by decide)

/-- C8: on the wrapped commit path, when the native git commit child exits
successfully, the post-commit hook runs and the process exits 0; a
post-commit hook failure is reported on stderr but does not change the
exit code. -/
theorem commit_posthook_nonfatal (env : GitAI.CommitEnv)
    (hrepo : env.findRepository = Except.ok ())
    (hpre : env.preCommitResult = Except.ok ())
    (hspawn : env.spawnStatus = Except.ok (some 0)) :
    (GitAI.handle_git_commit env).postHookRan = true ∧
    (GitAI.handle_git_commit env).exitCode = 0 ∧
    ∀ e : String, env.postCommitResult = Except.error e →
      ("Post-commit hook failed: " ++ e) ∈ (GitAI.handle_git_commit env).stderr := by
  rcases hpost : env.postCommitResult with e0 | u0 <;>
    simp [GitAI.handle_git_commit, GitAI.debugMsgs, hrepo, hpre, hspawn, hpost]

/-- Witness for C8 at a concrete environment with a failing post-commit
hook. -/
theorem commit_posthook_nonfatal_witness :
    (GitAI.handle_git_commit
        ⟨Except.ok (), Except.ok (), Except.ok (some 0), Except.error "oops",
          false⟩).postHookRan = true ∧
    (GitAI.handle_git_commit
        ⟨Except.ok (), Except.ok (), Except.ok (some 0), Except.error "oops",
          false⟩).exitCode = 0 ∧
    ("Post-commit hook failed: " ++ "oops") ∈
      (GitAI.handle_git_commit
        ⟨Except.ok (), Except.ok (), Except.ok (some 0), Except.error "oops",
          false⟩).stderr :=
  ⟨(commit_posthook_nonfatal _ rfl rfl rfl).1,
   (commit_posthook_nonfatal _ rfl rfl rfl).2.1,
   (commit_posthook_nonfatal _ rfl rfl rfl).2.2 "oops" rfl⟩

/-- C2: any subcommand other than commit and blame routes to the
transparent proxy, and the proxy's exit code equals the child's numeric
exit code exactly, or 1 when the child terminated without a code. -/
theorem proxy_exit_code_propagation (command : String) (args : List String)
    (env : GitAI.ProxyEnv)
    (hc : command ≠ "commit") (hb : command ≠ "blame") :
    GitAI.routeGitArgs (command :: args) = GitAI.Disposition.proxy command args ∧
    (∀ c : Int, env.spawnStatus = Except.ok (some c) →
      (GitAI.proxy_to_git env command args).exitCode = c) ∧
    (env.spawnStatus = Except.ok none →
      (GitAI.proxy_to_git env command args).exitCode = 1) := by
  refine ⟨by simp [GitAI.routeGitArgs, hc, hb], ?_, ?_⟩
  · intro c hs
    simp [GitAI.proxy_to_git, hs]
  · intro hs
    simp [GitAI.proxy_to_git, hs]

/-- Witness for C2: a concrete passthrough subcommand whose child exited
with code 127 yields exit code 127. -/
theorem proxy_exit_code_propagation_witness :
    (GitAI.proxy_to_git
        ⟨Except.ok (), fun _ => none, fun _ => none, Except.ok (some 127)⟩
        "status" []).exitCode = 127 :=
  (proxy_exit_code_propagation "status" []
      ⟨Except.ok (), fun _ => none, fun _ => none, Except.ok (some 127)⟩
      (by decide) (by decide)).2.1 127 rfl

/-- The argument list handed to git does not depend on how the spawn
turned out. -/
theorem proxy_finalArgs (env : GitAI.ProxyEnv) (command : String) (args : List String) :
    (GitAI.proxy_to_git env command args).finalArgs =
      GitAI.augmentedArgs env command args := by
  unfold GitAI.proxy_to_git
  rcases env.spawnStatus with e | st <;> rfl

/-- C4: a simple fetch invocation (zero arguments, or one argument not
beginning with a dash) with a resolvable repository hands git the rebuilt
list [remote, configured fetch refspecs in order, auxiliary authorship
fetch refspec], with the remote defaulting to "origin"; any other fetch
invocation is forwarded unmodified. -/
theorem fetch_augmentation (env : GitAI.ProxyEnv) (args : List String) :
    (env.findRepository = Except.ok () → GitAI.simpleArgs args = true →
      (GitAI.proxy_to_git env "fetch" args).finalArgs =
        ((args.head?).getD "origin") ::
          (GitAI.get_fetch_refspecs env ((args.head?).getD "origin") ++
            [GitAI.fetch_aux_refspec ((args.head?).getD "origin")])) ∧
    (GitAI.simpleArgs args = false →
      (GitAI.proxy_to_git env "fetch" args).finalArgs = args) := by
  constructor
  · intro hrepo hsimple
    rw [proxy_finalArgs]
    simp [GitAI.augmentedArgs, hrepo, hsimple]
  · intro hsimple
    rw [proxy_finalArgs]
    simp [GitAI.augmentedArgs, hsimple]

/-- Witness for C4: with no arguments, no configured refspecs,
the rebuilt list is [origin, auxiliary refspec]; with
["--tags"], the arguments pass through unchanged. -/
theorem fetch_augmentation_witness :
    (GitAI.proxy_to_git
        ⟨Except.ok (), fun _ => none,
          fun _ => none, Except.ok (some 0)⟩ "fetch" []).finalArgs =
      ["origin", "+refs/ai/authorship/*:refs/remotes/origin/ai/authorship/*"] ∧
    (GitAI.proxy_to_git
        ⟨Except.ok (), fun _ => none,
          fun _ => none, Except.ok (some 0)⟩ "fetch" ["--tags"]).finalArgs =
      ["--tags"] := by
  constructor
  · have h :=
      (fetch_augmentation
        ⟨Except.ok (), fun _ => none,
          fun _ => none, Except.ok (some 0)⟩ []).1 rfl rfl
    rw [h]
    decide
  · exact (fetch_augmentation
      ⟨Except.ok (), fun _ => none,
        fun _ => none, Except.ok (some 0)⟩ ["--tags"]).2 (by decide)

/-- C5: a simple push invocation with a resolvable repository hands git the
rebuilt list [remote, configured push refspecs in order, auxiliary
authorship push refspec], where the auxiliary refspec mentions no remote
and has no force prefix; any other push invocation is forwarded
unmodified. -/
theorem push_augmentation (env : GitAI.ProxyEnv) (args : List String) :
    (env.findRepository = Except.ok () → GitAI.simpleArgs args = true →
      (GitAI.proxy_to_git env "push" args).finalArgs =
        ((args.head?).getD "origin") ::
          (GitAI.get_push_refspecs env ((args.head?).getD "origin") ++
            ["refs/ai/authorship/*:refs/ai/authorship/*"])) ∧
    (GitAI.simpleArgs args = false →
      (GitAI.proxy_to_git env "push" args).finalArgs = args) := by
  constructor
  · intro hrepo hsimple
    rw [proxy_finalArgs]
    simp [GitAI.augmentedArgs, GitAI.push_aux_refspec, hrepo, hsimple]
  · intro hsimple
    rw [proxy_finalArgs]
    simp [GitAI.augmentedArgs, hsimple]

/-- Witness for C5: a one-argument push to "upstream" with no configured
push refspecs rebuilds to [upstream, auxiliary refspec]; a flag invocation
passes through. -/
theorem push_augmentation_witness :
    (GitAI.proxy_to_git
        ⟨Except.ok (), fun _ => none, fun _ => none, Except.ok (some 0)⟩
        "push" ["upstream"]).finalArgs =
      ["upstream", "refs/ai/authorship/*:refs/ai/authorship/*"] ∧
    (GitAI.proxy_to_git
        ⟨Except.ok (), fun _ => none, fun _ => none, Except.ok (some 0)⟩
        "push" ["--force"]).finalArgs = ["--force"] := by
  constructor
  · have h :=
      (push_augmentation
        ⟨Except.ok (), fun _ => none, fun _ => none, Except.ok (some 0)⟩
        ["upstream"]).1 rfl (by decide)
    rw [h]
    decide
  · exact (push_augmentation
      ⟨Except.ok (), fun _ => none, fun _ => none, Except.ok (some 0)⟩
      ["--force"]).2 (by decide)

/-- C6: for a simple fetch or push invocation, when repository resolution
fails the original arguments are forwarded unchanged and the command still
proceeds: the exit code is still the child's own code. -/
theorem augmentation_fallback_on_resolution_failure (env : GitAI.ProxyEnv)
    (command : String) (args : List String) (e : String)
    (hcmd : command = "fetch" ∨ command = "push")
    (hrepo : env.findRepository = Except.error e)
    (hsimple : GitAI.simpleArgs args = true) :
    (GitAI.proxy_to_git env command args).finalArgs = args ∧
    (∀ c : Int, env.spawnStatus = Except.ok (some c) →
      (GitAI.proxy_to_git env command args).exitCode = c) := by
  constructor
  · rw [proxy_finalArgs]
    rcases hcmd with h | h <;> subst h <;>
      simp [GitAI.augmentedArgs, hrepo, hsimple]
  · intro c hs
    simp [GitAI.proxy_to_git, hs]

/-- Witness for C6: a simple fetch in an unresolvable repository forwards
the original argument unchanged and exits with the child's code. -/
theorem augmentation_fallback_on_resolution_failure_witness :
    (GitAI.proxy_to_git
        ⟨Except.error "not a git repository", fun _ => none, fun _ => none,
          Except.ok (some 2)⟩ "fetch" ["origin"]).finalArgs = ["origin"] ∧
    (GitAI.proxy_to_git
        ⟨Except.error "not a git repository", fun _ => none, fun _ => none,
          Except.ok (some 2)⟩ "fetch" ["origin"]).exitCode = 2 :=
  ⟨(augmentation_fallback_on_resolution_failure
      ⟨Except.error "not a git repository", fun _ => none, fun _ => none,
        Except.ok (some 2)⟩ "fetch" ["origin"] "not a git repository"
      (Or.inl rfl) rfl (by decide)).1,
   (augmentation_fallback_on_resolution_failure
      ⟨Except.error "not a git repository", fun _ => none, fun _ => none,
        Except.ok (some 2)⟩ "fetch" ["origin"] "not a git repository"
      (Or.inl rfl) rfl (by decide)).2 2 rfl⟩

/-- C10 counterexample: the blame handler resolves the repository before
checking its arguments, so with an empty argument list and a failing
repository resolution it prints the resolution failure, not the usage
message. -/
theorem blame_handler_usage_counterexample :
    (GitAI.handle_git_blame ⟨Except.error "not a git repository", Except.ok ()⟩ []).stderr
      = ["Failed to find repository: not a git repository"] ∧
    "Usage: git-ai blame <file>" ∉
      (GitAI.handle_git_blame ⟨Except.error "not a git repository", Except.ok ()⟩ []).stderr := by
  constructor
  · rfl
  · decide

/-- C10 (amended): when repository resolution succeeds, the blame handler
with a non-empty argument list parses the first argument as the blame
target (even one beginning with a dash) and ignores every later argument
entirely; with an empty argument list it prints the usage message and
exits 1. -/
theorem blame_handler_first_arg_only (env : GitAI.BlameEnv)
    (hrepo : env.findRepository = Except.ok ()) :
    (∀ (a : String) (rest rest2 : List String),
      (GitAI.handle_git_blame env (a :: rest)).blameQuery =
        some (GitAI.parse_file_with_line_range a) ∧
      GitAI.handle_git_blame env (a :: rest) = GitAI.handle_git_blame env (a :: rest2)) ∧
    ((GitAI.handle_git_blame env []).exitCode = 1 ∧
      (GitAI.handle_git_blame env []).stderr = ["Usage: git-ai blame <file>"]) := by
  rcases hb : env.blameResult with e0 | u0 <;>
    simp [GitAI.handle_git_blame, hrepo, hb]

/-- Witness for the amended C10 at a concrete environment: empty arguments
give the usage error, and a dash-prefixed first argument is still the one
parsed while the later argument is ignored. -/
theorem blame_handler_first_arg_only_witness :
    (GitAI.handle_git_blame ⟨Except.ok (), Except.ok ()⟩ []).exitCode = 1 ∧
    (GitAI.handle_git_blame ⟨Except.ok (), Except.ok ()⟩ ["-L", "file.rs"]).blameQuery =
      some (GitAI.parse_file_with_line_range "-L") ∧
    GitAI.handle_git_blame ⟨Except.ok (), Except.ok ()⟩ ["-L", "file.rs"] =
      GitAI.handle_git_blame ⟨Except.ok (), Except.ok ()⟩ ["-L"] :=
  ⟨(blame_handler_first_arg_only ⟨Except.ok (), Except.ok ()⟩ rfl).2.1,
   ((blame_handler_first_arg_only ⟨Except.ok (), Except.ok ()⟩ rfl).1 "-L" ["file.rs"] []).1,
   ((blame_handler_first_arg_only ⟨Except.ok (), Except.ok ()⟩ rfl).1 "-L" ["file.rs"] []).2⟩

/-- A character that is not a digit does not occur in an all-digit list. -/
theorem not_mem_of_all_digits (c : Char) (hc : c.isDigit = false)
    (l : List Char) (hd : ∀ x ∈ l, x.isDigit = true) : c ∉ l := by
  intro hmem
  have h := hd c hmem
  rw [hc] at h
  exact Bool.false_ne_true h

/-- `rfindChar` finds nothing in a list that lacks the character. -/
theorem rfindChar_eq_none (c : Char) (l : List Char) (h : c ∉ l) :
    GitAI.rfindChar c l = none := by
  induction l with
  | nil => rfl
  | cons x xs ih =>
    simp only [List.mem_cons, not_or] at h
    unfold GitAI.rfindChar
    rw [ih h.2]
    simp [Ne.symm h.1]

/-- `rfindChar` locates the occurrence of `c` after which `c` never occurs
again. -/
theorem rfindChar_last (c : Char) (xs ys : List Char) (h : c ∉ ys) :
    GitAI.rfindChar c (xs ++ c :: ys) = some xs.length := by
  induction xs with
  | nil =>
    simp only [List.nil_append]
    unfold GitAI.rfindChar
    rw [rfindChar_eq_none c ys h]
    simp
  | cons x xs ih =>
    simp only [List.cons_append]
    unfold GitAI.rfindChar
    rw [ih]
    simp

/-- `ffindChar` finds nothing in a list that lacks the character. -/
theorem ffindChar_eq_none (c : Char) (l : List Char) (h : c ∉ l) :
    GitAI.ffindChar c l = none := by
  induction l with
  | nil => rfl
  | cons x xs ih =>
    simp only [List.mem_cons, not_or] at h
    unfold GitAI.ffindChar
    rw [if_neg (Ne.symm h.1), ih h.2]
    rfl

/-- `ffindChar` locates the occurrence of `c` before which `c` never
occurs. -/
theorem ffindChar_first (c : Char) (xs ys : List Char) (h : c ∉ xs) :
    GitAI.ffindChar c (xs ++ c :: ys) = some xs.length := by
  induction xs with
  | nil => simp [GitAI.ffindChar]
  | cons x xs ih =>
    simp only [List.mem_cons, not_or] at h
    simp only [List.cons_append]
    unfold GitAI.ffindChar
    rw [if_neg (Ne.symm h.1), ih h.2]
    rfl

/-- Taking the length of the left part of an append returns it. -/
theorem take_append_self (xs ys : List Char) : (xs ++ ys).take xs.length = xs := by
  induction xs with
  | nil => rfl
  | cons x xs ih => simp

/-- Dropping past a separator right after the left part of an append
returns the right part. -/
theorem drop_append_cons (xs ys : List Char) (c : Char) :
    (xs ++ c :: ys).drop (xs.length + 1) = ys := by
  induction xs with
  | nil => rfl
  | cons x xs ih => simp

/-- A nonempty all-digit string has no sign to strip. -/
theorem stripPlus_of_digits (l : List Char) (hne : l ≠ [])
    (hd : ∀ x ∈ l, x.isDigit = true) : GitAI.stripPlus l = l := by
  cases l with
  | nil => exact absurd rfl hne
  | cons c rest =>
    have h := hd c (List.mem_cons_self c rest)
    have hc : c ≠ '+' := by
      intro he
      rw [he] at h
      exact absurd h (by decide)
    simp [GitAI.stripPlus, hc]

/-- A nonempty all-digit string whose value exceeds the 32-bit bound fails
to parse. -/
theorem parseU32_overflow (l : List Char) (hne : l ≠ [])
    (hd : ∀ x ∈ l, x.isDigit = true) (hbig : 4294967295 < GitAI.digitsVal l) :
    GitAI.parseU32 l = none := by
  unfold GitAI.parseU32
  rw [stripPlus_of_digits l hne hd, if_neg hne]
  have hall : l.all Char.isDigit = true := by
    rw [List.all_eq_true]
    exact hd
  rw [if_pos hall, if_neg (not_le.mpr hbig)]

/-- C9: the blame-target parser parses range numbers as 32-bit unsigned
integers: when the last-colon suffix is an all-digit number, or a
dash-separated pair of all-digit numbers, in which some value exceeds
4294967295, parsing fails and the entire original string is returned as
the path with no range. -/
theorem blame_parser_u32_overflow :
    (∀ path suffix : List Char, suffix ≠ [] →
      (∀ x ∈ suffix, x.isDigit = true) →
      4294967295 < GitAI.digitsVal suffix →
      GitAI.parse_file_with_line_range (String.mk (path ++ ':' :: suffix)) =
        (String.mk (path ++ ':' :: suffix), none)) ∧
    (∀ path a b : List Char, a ≠ [] → b ≠ [] →
      (∀ x ∈ a, x.isDigit = true) → (∀ x ∈ b, x.isDigit = true) →
      (4294967295 < GitAI.digitsVal a ∨ 4294967295 < GitAI.digitsVal b) →
      GitAI.parse_file_with_line_range (String.mk (path ++ ':' :: (a ++ '-' :: b))) =
        (String.mk (path ++ ':' :: (a ++ '-' :: b)), none)) := by
  constructor
  · intro path suffix hne hd hbig
    have hcolon : ':' ∉ suffix := not_mem_of_all_digits ':' (by decide) suffix hd
    have hdash : '-' ∉ suffix := not_mem_of_all_digits '-' (by decide) suffix hd
    unfold GitAI.parse_file_with_line_range
    simp only [String.toList]
    simp only [rfindChar_last ':' path suffix hcolon]
    simp only [drop_append_cons path suffix ':']
    simp only [ffindChar_eq_none '-' suffix hdash]
    simp only [parseU32_overflow suffix hne hd hbig]
  · intro path a b hna hnb hda hdb hbig
    have hcolon : ':' ∉ a ++ '-' :: b := by
      intro hmem
      rcases List.mem_append.mp hmem with h | h
      · exact not_mem_of_all_digits ':' (by decide) a hda h
      · rcases List.mem_cons.mp h with h | h
        · exact absurd h (by decide)
        · exact not_mem_of_all_digits ':' (by decide) b hdb h
    have hdashA : '-' ∉ a := not_mem_of_all_digits '-' (by decide) a hda
    unfold GitAI.parse_file_with_line_range
    simp only [String.toList]
    simp only [rfindChar_last ':' path (a ++ '-' :: b) hcolon]
    simp only [drop_append_cons path (a ++ '-' :: b) ':']
    simp only [ffindChar_first '-' a b hdashA]
    simp only [take_append_self a ('-' :: b), drop_append_cons a b '-']
    rcases hbig with hb1 | hb2
    · simp only [parseU32_overflow a hna hda hb1]
    · rcases hpa : GitAI.parseU32 a with _ | va <;>
        simp only [hpa, parseU32_overflow b hnb hdb hb2]

/-- Witness for C9: "f:4294967296" carries a suffix one above the 32-bit
bound and falls back to the whole string with no range. -/
theorem blame_parser_u32_overflow_witness :
    GitAI.parse_file_with_line_range "f:4294967296" = ("f:4294967296", none) := by
  have h := blame_parser_u32_overflow.1 ("f".toList) ("4294967296".toList)
    (by decide) (by decide) (by decide)
  have hs : String.mk ("f".toList ++ ':' :: "4294967296".toList) = "f:4294967296" := by
    decide
  rw [hs] at h
  exact h
